import Mathlib

/-
  Verification development for the poe_data trading repository.

  The definitions below are shallow embeddings of the repository's Python
  source (src/src/data_handler.py, src/src/ib_client.py).  Machine floats
  are modelled by exact rationals, pandas DataFrames by lists of rows, and
  the ib_insync broker by an explicit environment record holding the
  snapshots the code reads (positions, open trades, fills).
-/

namespace PoeData

/-! ## TimeSeriesStore: DataHandler.update_historical_data
    (src/src/data_handler.py, lines 76-101) -/

/-- One row of a per-symbol bar history frame: columns
`Date, Open, High, Low, Close, Volume, status` (the `status` column is the
signal annotation added by the pipeline; freshly fetched bars get `"null"`,
data_handler.py line 92).  `openP` stands for the `Open` column (`open` is a
Lean keyword).  Timestamps are abstracted to naturals. -/
structure Bar where
  date : Nat
  openP : ℚ
  high : ℚ
  low : ℚ
  close : ℚ
  volume : ℚ
  status : String
deriving DecidableEq

/-- The `Date` column of a frame. -/
def dates (l : List Bar) : List Nat := l.map (fun b => b.date)

/-- pandas `df.tail(1)` (data_handler.py line 93): the last row, if any. -/
def tailOne (l : List Bar) : List Bar :=
  match l.getLast? with
  | none => []
  | some b => [b]

/-- pandas `drop_duplicates(subset=["Date"], keep='first')`
(data_handler.py line 95): keep the first row of each timestamp, preserving
order. -/
def dropDuplicatesByDate : List Bar → List Bar
  | [] => []
  | b :: rest => b :: dropDuplicatesByDate (rest.filter fun x => x.date != b.date)
termination_by l => l.length
decreasing_by
  simp only [List.length_cons]
  exact Nat.lt_succ_of_le (List.length_filter_le _ _)

/-- Embeds `DataHandler.update_historical_data` (data_handler.py lines
76-101).  The broker fetch result is the `new_data` argument; line 92 sets
the `status` column of every fetched row to `"null"`; line 93 keeps only the
last fetched row (`df_new.tail(1)`); lines 94-98 concatenate with the stored
series and de-duplicate by `Date` keeping the first occurrence when the
stored series is nonempty, and otherwise return the fetched frame unchanged.
Returns the pair `(df_new, df_combined)` (line 101). -/
def update_historical_data (old_data : List Bar) (new_data : List Bar) :
    List Bar × List Bar :=
  let df_new := new_data.map (fun b => { b with status := "null" })
  let df_new_temp := tailOne df_new
  let df_combined :=
    if old_data = [] then df_new
    else dropDuplicatesByDate (old_data ++ df_new_temp)
  (df_new, df_combined)

/-- First row of a frame carrying a given timestamp, if any. -/
def findByDate (l : List Bar) (t : Nat) : Option Bar :=
  l.find? (fun b => b.date == t)

/-- The timestamps of the frame are pairwise distinct. -/
def datesNodup (l : List Bar) : Prop := (dates l).Nodup

/-- The timestamps of the frame are strictly increasing (hence unique):
the SymbolSeries core invariant. -/
def strictlyIncreasing (l : List Bar) : Prop := (dates l).Pairwise (· < ·)

instance (l : List Bar) : Decidable (datesNodup l) := by
  unfold datesNodup; infer_instance

instance (l : List Bar) : Decidable (strictlyIncreasing l) := by
  unfold strictlyIncreasing; infer_instance

/-- A bar with the given timestamp and trivial OHLCV payload, for concrete
counterexamples. -/
def barAt (t : Nat) : Bar :=
  { date := t, openP := 1, high := 1, low := 1, close := 1, volume := 0,
    status := "null" }

/-- A bar with a chosen timestamp and close, for concrete counterexamples. -/
def barAtClose (t : Nat) (c : ℚ) : Bar :=
  { date := t, openP := c, high := c, low := c, close := c, volume := 0,
    status := "null" }

/-! ## OrderExecutionEngine: IBClient (src/src/ib_client.py)

The ib_insync broker is modelled by an `Env` record holding the snapshots
the code reads during one call (positions, open trades, the fills visible
while polling, and the uuid draw), and an `EngineState` record holding the
state the code writes (orders submitted to the broker in submission order,
cancel requests, the two tracked-order registries, the per-order status map
and the two persisted JSON files).  Polling loops with a timeout are
embedded as a lookup in the snapshot: a matching record exists iff the loop
would have found one before the deadline. -/

/-- One execution report, as consumed from `ib.fills()`
(ib_client.py lines 96-100): `fill.execution.orderId`, `.price`, `.shares`,
`.time` (timestamps abstracted to naturals). -/
structure Fill where
  orderId : Nat
  price : ℚ
  shares : ℚ
  time : Nat
deriving DecidableEq

/-- One broker position, as read from `ib.positions()` (ib_client.py lines
126-146).  `localSymbol` is the raw contract symbol before the
`replace(".", "")` normalisation of line 133. -/
structure PositionRec where
  account : String
  localSymbol : String
  position : ℚ
  avgCost : ℚ
deriving DecidableEq

/-- One trade from `ib.reqOpenOrders()` (ib_client.py lines 150-167),
flattened to the fields the code reads: `trade.order.orderId`, `.action`,
`.orderType`, `.totalQuantity`, `trade.contract.symbol`,
`trade.orderStatus.status`. -/
structure BrokerTrade where
  orderId : Nat
  symbol : String
  action : String
  orderType : String
  totalQuantity : ℚ
  status : String
deriving DecidableEq

/-- The broker-side snapshots one call of the engine reads. `ocaSeed`
stands for the random uuid4 draw of ib_client.py line 284. -/
structure Env where
  positions : List PositionRec
  openTrades : List BrokerTrade
  fills : List Fill
  ocaSeed : String
deriving DecidableEq

/-- An ib_insync `Order` as constructed by the code (ib_client.py lines
110-114, 211-216, 287-305).  Named `IBOrder` because `Order` is a Mathlib
namespace.  `lmtPrice`/`auxPrice` are `none` when the constructor call does
not pass them. -/
structure IBOrder where
  orderId : Nat := 0
  action : String
  orderType : String
  totalQuantity : ℚ
  lmtPrice : Option ℚ := none
  auxPrice : Option ℚ := none
  ocaGroup : Option String := none
  ocaType : Nat := 0
  transmit : Bool := true
deriving DecidableEq

/-- One row of `data/order_signal.json` (ib_client.py lines 237-243). -/
structure SignalRecord where
  symbol : String
  datetime : Nat
  direction : String
  price : ℚ
deriving DecidableEq

/-- One row of `data/open_position.json` (ib_client.py lines 244-253). -/
structure OpenOrderRecord where
  entryDateTime : Nat
  symbolName : String
  orderId : Nat
  qty : ℚ
  entryPrice : ℚ
  exitDateTime : String
  exitPrice : String
deriving DecidableEq

/-- The mutable state the engine writes: the orders handed to
`ib.placeOrder` in submission order (paired with the contract symbol), the
ids handed to `ib.cancelOrder`, the module-global `tracked_order_ids` list
(ib_client.py line 24), the instance sets/maps of `IBClient.__init__`
(lines 44-45), and the contents of the two persisted JSON files. `nextOrderId`
is the broker-assigned id counter. -/
structure EngineState where
  nextOrderId : Nat
  placedOrders : List (String × IBOrder)
  cancelled : List Nat
  active_order_status : List (Nat × String)
  tracked_orders : List Nat
  tracked_order_ids : List Nat
  signal_records : List SignalRecord
  open_position_records : List OpenOrderRecord
deriving DecidableEq

/-- Python `s.replace(".", "")` (ib_client.py line 133): with a one-character
pattern and empty replacement this deletes every `'.'`.  Written over the
character list so it evaluates inside the kernel. -/
def removeDots (s : String) : String :=
  String.mk (s.data.filter (fun c => c != '.'))

/-- Occurrence test of a character pattern inside a character list. -/
def listContainsSub (sub : List Char) : List Char → Bool
  | [] => sub == []
  | c :: rest => sub.isPrefixOf (c :: rest) || listContainsSub sub rest

/-- Python `sub in s` substring test, over character lists so it evaluates
inside the kernel. -/
def containsStr (s sub : String) : Bool := listContainsSub sub.data s.data

/-- Python `s.upper()` for the ASCII strings the code compares, over the
character list so it evaluates inside the kernel. -/
def toUpperStr (s : String) : String := String.mk (s.data.map Char.toUpper)

/-- The statuses counted as open (ib_client.py line 149). -/
def open_statuses : List String :=
  ["Submitted", "PreSubmitted", "PendingSubmit", "PendingCancel"]

/-- Output row of `get_open_positions` for a position (ib_client.py lines
141-146). -/
structure OpenPositionOut where
  account : String
  symbol : String
  position : ℚ
  avgCost : ℚ
deriving DecidableEq

/-- Output row of `get_open_positions` for an open order (ib_client.py
lines 160-167). -/
structure OpenOrderOut where
  orderId : Nat
  symbol : String
  action : String
  orderType : String
  quantity : ℚ
  status : String
deriving DecidableEq

/-- Embeds `IBClient.get_open_positions` (ib_client.py lines 118-176): a
position is reported when its dot-stripped symbol equals the query symbol
and its size is nonzero (line 140); an order is reported when its status is
open and either the query symbol is empty (Python `None`) or the contract
symbol matches (lines 157-158).  The reconnect-if-disconnected step of
lines 123-124 touches only the connection, not this state, and is modelled
by `connect` separately. -/
def get_open_positions (env : Env) (symbol : String) :
    List OpenPositionOut × List OpenOrderOut :=
  let open_positions :=
    (env.positions.filter (fun pos =>
        removeDots pos.localSymbol == symbol && pos.position != 0)).map
      (fun pos =>
        { account := pos.account, symbol := removeDots pos.localSymbol,
          position := pos.position, avgCost := pos.avgCost })
  let open_orders :=
    (env.openTrades.filter (fun t =>
        open_statuses.contains t.status
          && (symbol == "" || t.symbol == symbol))).map
      (fun t =>
        { orderId := t.orderId, symbol := t.symbol, action := t.action,
          orderType := t.orderType, quantity := t.totalQuantity,
          status := t.status })
  (open_positions, open_orders)

/-- `ib.placeOrder(contract, order)`: the broker assigns the next order id
and records the submission; returns the updated state and the assigned id. -/
def placeOrder (st : EngineState) (contractSymbol : String) (o : IBOrder) :
    EngineState × Nat :=
  let oid := st.nextOrderId
  ({ st with
      nextOrderId := oid + 1,
      placedOrders := st.placedOrders ++ [(contractSymbol, { o with orderId := oid })] },
   oid)

/-- Embeds `IBClient.cancel_order` (ib_client.py lines 105-107). -/
def cancel_order (st : EngineState) (orderId : Nat) : EngineState :=
  { st with cancelled := st.cancelled ++ [orderId] }

/-- Embeds `IBClient.flatten_position` (ib_client.py lines 109-116): a
market order on the opposing side for the given quantity. -/
def flatten_position (st : EngineState) (contractSymbol : String)
    (action : String) (quantity : ℚ) : EngineState :=
  (placeOrder st contractSymbol
    { action := if toUpperStr action == "BUY" then "SELL" else "BUY",
      orderType := "MKT", totalQuantity := quantity }).1

/-- Embeds the deferred task body of `IBClient.fallback_kill_switch`
(ib_client.py lines 180-195): after `time.sleep(timeout)` every remaining
statement of the task — the status check, the two `cancel_order` calls and
the `flatten_position` call, lines 183-193 — is commented out, so the task
completes without changing any state.  The unused parameters mirror the
Python signature. -/
def fallback_kill_switch_task (st : EngineState) (contractSymbol : String)
    (action : String) (quantity : ℚ) (tp_order sl_order : IBOrder) :
    EngineState :=
  st

/-- Python 3 `round(q)`: round half to even. -/
def pyRound (q : ℚ) : ℤ :=
  let f := ⌊q⌋
  let r := q - f
  if r < 1/2 then f
  else if 1/2 < r then f + 1
  else if 2 ∣ f then f else f + 1

/-- Python `round(q, 5)` (ib_client.py lines 282-283). -/
def round5 (q : ℚ) : ℚ := (pyRound (q * 100000) : ℚ) / 100000

/-- Python `set.update`: add each id not already present. -/
def updateSet (s : List Nat) (xs : List Nat) : List Nat :=
  xs.foldl (fun acc x => if x ∈ acc then acc else acc ++ [x]) s

/-- Embeds `IBClient.place_bracket_order` (ib_client.py lines 197-321).

Steps, in source order: the exposure gate of lines 200-206 (bare `return`,
i.e. `none`, when any open position or open order exists for the symbol);
the pip size of line 208; the market entry order of lines 211-218; the
execution poll of line 222, embedded as a lookup of the entry id in the
fills snapshot, whose `TimeoutError` branch (lines 223-225) returns with no
further effect; the signal/open-position JSON appends of lines 237-280; the
TP/SL prices of lines 282-283 (rounded to 5 decimal places, computed from
the actual execution price); the OCA group id of line 284; the STP and LMT
legs of lines 287-309 (stop placed first, then target); the registry
updates of lines 312 and 317; and the kill-switch task of line 321 (the
watchdogs of lines 319-320 only log).  All Python paths return `None`. -/
def place_bracket_order (env : Env) (st : EngineState) (symbol : String)
    (action : String) (quantity : ℚ := 20000) (target_pips : ℚ := 5)
    (stop_loss_pips : ℚ := 5) : EngineState × Option String :=
  let open_positions := get_open_positions env symbol
  if open_positions.1.length > 0 ∨ open_positions.2.length > 0 then
    (st, none)
  else
    let pip_size : ℚ := if containsStr symbol "JPY" then 1/100 else 1/10000
    let entry_order : IBOrder :=
      { action := toUpperStr action, orderType := "MKT",
        totalQuantity := quantity, transmit := true }
    let placed := placeOrder st symbol entry_order
    let st1 := placed.1
    let entry_order_id := placed.2
    match env.fills.find? (fun f => f.orderId == entry_order_id) with
    | none => (st1, none)
    | some execution =>
      let entry_price := execution.price
      let shares := execution.shares
      let is_buy := toUpperStr action == "BUY"
      let timestamp := execution.time
      let signal_record : SignalRecord :=
        { symbol := symbol, datetime := timestamp,
          direction := toUpperStr action, price := entry_price }
      let open_order : OpenOrderRecord :=
        { entryDateTime := timestamp, symbolName := symbol,
          orderId := execution.orderId, qty := quantity,
          entryPrice := entry_price, exitDateTime := "", exitPrice := "" }
      let st2 := { st1 with
        signal_records := st1.signal_records ++ [signal_record],
        open_position_records := st1.open_position_records ++ [open_order] }
      let tp_price :=
        if is_buy then round5 (entry_price + target_pips * pip_size)
        else round5 (entry_price - target_pips * pip_size)
      let sl_price :=
        if is_buy then round5 (entry_price - stop_loss_pips * pip_size)
        else round5 (entry_price + stop_loss_pips * pip_size)
      let oca_group := "OCA_" ++ env.ocaSeed
      let sl_order : IBOrder :=
        { action := if is_buy then "SELL" else "BUY", orderType := "STP",
          auxPrice := some sl_price, totalQuantity := shares,
          ocaGroup := some oca_group, ocaType := 1, transmit := true }
      let tp_order : IBOrder :=
        { action := if is_buy then "SELL" else "BUY", orderType := "LMT",
          lmtPrice := some tp_price, totalQuantity := shares,
          ocaGroup := some oca_group, ocaType := 1, transmit := true }
      let placedSl := placeOrder st2 symbol sl_order
      let st3 := placedSl.1
      let sl_id := placedSl.2
      let placedTp := placeOrder st3 symbol tp_order
      let st4 := placedTp.1
      let tp_id := placedTp.2
      let st5 := { st4 with
        tracked_order_ids :=
          st4.tracked_order_ids ++ [entry_order_id, tp_id, sl_id],
        tracked_orders := updateSet st4.tracked_orders [sl_id, tp_id] }
      let st6 := fallback_kill_switch_task st5 symbol action shares
        tp_order sl_order
      (st6, none)

/-- Observation helper: the `(orderType, lmtPrice, auxPrice)` triples of the
orders a call appended to `placedOrders`, given the states before and
after. -/
def legPrices (before after : EngineState) :
    List (String × Option ℚ × Option ℚ) :=
  (after.placedOrders.drop before.placedOrders.length).map
    (fun p => (p.2.orderType, p.2.lmtPrice, p.2.auxPrice))

/-- Embeds `IBClient.connect` (ib_client.py lines 49-52): a single
`self.ib.connect(host, port, clientId)` call with no connection-state
guard, no retry loop and no exception handling.  `attemptOutcomes` lists
the outcomes successive low-level connection attempts would have; the code
consumes exactly one.  Returns the call's outcome and the number of
attempts made. -/
def connect (attemptOutcomes : List Bool) : Except String Unit × Nat :=
  match attemptOutcomes with
  | [] => (Except.error "ConnectionRefusedError", 1)
  | outcome :: _ =>
    (if outcome then Except.ok () else Except.error "ConnectionRefusedError", 1)

/-- Modelled from the spec, for comparison with `connect` (spec section 4.1):
"on failure retries with a fixed delay up to a configured attempt count;
fails with ConnectivityError after exhaustion". -/
def connect_spec (maxAttempts : Nat) (attemptOutcomes : List Bool) :
    Except String Unit :=
  match maxAttempts, attemptOutcomes with
  | 0, _ => Except.error "ConnectivityError"
  | _ + 1, [] => Except.error "ConnectivityError"
  | n + 1, outcome :: rest =>
    if outcome then Except.ok () else connect_spec n rest

/-- Modelled from the spec: `ReconciliationService.resync` (spec section
4.3).  The repository contains no reconciliation code; only the
TrackedOrderSet it would act on is declared (`self.tracked_orders = set()`,
ib_client.py line 45).  Per the spec: ids locally tracked but absent from
the broker's open-order snapshot are reclassified terminal (dropped from
the tracked set, never re-submitted); ids open at the broker but not
locally tracked are adopted; the service is read-only with respect to
broker state. -/
def resync (st : EngineState) (brokerOpenIds : List Nat) : EngineState :=
  { st with tracked_orders :=
      st.tracked_orders.filter (fun oid => brokerOpenIds.contains oid)
        ++ brokerOpenIds.filter (fun oid => !st.tracked_orders.contains oid) }

/-! ## Concrete inputs for counterexamples and witnesses -/

/-- An engine state holding no orders; broker id counter starts at 3. -/
def st0 : EngineState :=
  { nextOrderId := 3, placedOrders := [], cancelled := [],
    active_order_status := [], tracked_orders := [], tracked_order_ids := [],
    signal_records := [], open_position_records := [] }

/-- An environment with no exposure and no fills. -/
def envQuiet : Env :=
  { positions := [], openTrades := [], fills := [], ocaSeed := "c0ffee00" }

/-- An environment holding an open EURUSD position of 20000. -/
def envExposed : Env :=
  { positions := [{ account := "DU111111", localSymbol := "EUR.USD",
                    position := 20000, avgCost := 11/10 }],
    openTrades := [], fills := [], ocaSeed := "c0ffee00" }

/-- An environment with no exposure whose fills snapshot contains an
execution for order id 3 (the entry id `st0` assigns) at price 1.10000 for
20000 shares. -/
def envFilled : Env :=
  { positions := [], openTrades := [],
    fills := [{ orderId := 3, price := 11/10, shares := 20000,
                time := 1700000000 }],
    ocaSeed := "c0ffee00" }

/-- An environment with no exposure whose fills snapshot contains an
execution for order id 3 at price 150 for 20000 shares (USDJPY witness). -/
def envFilledJpy : Env :=
  { positions := [], openTrades := [],
    fills := [{ orderId := 3, price := 150, shares := 20000,
                time := 1700000000 }],
    ocaSeed := "c0ffee00" }

/-- The take-profit leg of the kill-switch scenario: order id 2. -/
def tpOrderC1 : IBOrder :=
  { orderId := 2, action := "SELL", orderType := "LMT",
    totalQuantity := 20000, lmtPrice := some (110050/100000),
    ocaGroup := some "OCA_c0ffee00", ocaType := 1, transmit := true }

/-- The stop-loss leg of the kill-switch scenario: order id 1. -/
def slOrderC1 : IBOrder :=
  { orderId := 1, action := "SELL", orderType := "STP",
    totalQuantity := 20000, auxPrice := some (109950/100000),
    ocaGroup := some "OCA_c0ffee00", ocaType := 1, transmit := true }

/-- An engine state at the moment the kill-switch timer expires, with both
bracket legs still in status `PreSubmitted` — not the exclusive
one-Filled-one-Cancelled pattern — and nothing cancelled yet. -/
def stC1 : EngineState :=
  { nextOrderId := 3,
    placedOrders :=
      [("EURUSD", { orderId := 0, action := "BUY", orderType := "MKT",
                    totalQuantity := 20000, transmit := true }),
       ("EURUSD", slOrderC1), ("EURUSD", tpOrderC1)],
    cancelled := [],
    active_order_status := [(2, "PreSubmitted"), (1, "PreSubmitted")],
    tracked_orders := [1, 2], tracked_order_ids := [0, 2, 1],
    signal_records := [], open_position_records := [] }

/-- An engine state tracking order ids 1 and 2, for the reconciliation
witness. -/
def stTracked : EngineState :=
  { st0 with tracked_orders := [1, 2] }

/-- A stored bar at timestamp 1 carrying a signal annotation in its
`status` column. -/
def annBar : Bar :=
  { date := 1, openP := 1, high := 1, low := 1, close := 1, volume := 0,
    status := "BUY" }

/-! ## Helper lemmas about the de-duplication pipeline -/

theorem mem_of_mem_dropDuplicates {x : Bar} {l : List Bar}
    (h : x ∈ dropDuplicatesByDate l) : x ∈ l := by
  induction l using dropDuplicatesByDate.induct with
  | case1 => simp [dropDuplicatesByDate] at h
  | case2 b rest ih =>
    simp only [dropDuplicatesByDate, List.mem_cons] at h
    rcases h with h | h
    · simp [h]
    · exact List.mem_cons_of_mem _ (List.mem_of_mem_filter (ih h))

theorem find?_filter_date_ne (rest : List Bar) (d t : Nat) (hne : d ≠ t) :
    (rest.filter (fun x => x.date != d)).find? (fun b => b.date == t)
      = rest.find? (fun b => b.date == t) := by
  induction rest with
  | nil => simp
  | cons y ys ih =>
    by_cases hy : y.date = d
    · have h1 : (y.date != d) = false := by simp [hy]
      have h2 : (y.date == t) = false := by simp [hy, hne]
      simp [List.filter_cons, h1, List.find?, h2, ih]
    · have h1 : (y.date != d) = true := by simp [hy]
      by_cases hyt : y.date = t
      · rw [List.filter_cons, if_pos h1]
        simp [List.find?, hyt]
      · have h2 : (y.date == t) = false := by simp [hyt]
        simp [List.filter_cons, h1, List.find?, h2, ih]

theorem find?_dropDuplicates (l : List Bar) (t : Nat) :
    (dropDuplicatesByDate l).find? (fun b => b.date == t)
      = l.find? (fun b => b.date == t) := by
  induction l using dropDuplicatesByDate.induct with
  | case1 => simp [dropDuplicatesByDate]
  | case2 b rest ih =>
    by_cases hb : b.date = t
    · simp [dropDuplicatesByDate, List.find?, hb]
    · have hb' : (b.date == t) = false := by simp [hb]
      simp only [dropDuplicatesByDate, List.find?, hb', ih]
      exact find?_filter_date_ne rest b.date t hb

theorem dateMem_dropDuplicates (l : List Bar) (t : Nat) :
    t ∈ dates (dropDuplicatesByDate l) ↔ t ∈ dates l := by
  have key : ∀ L : List Bar,
      t ∈ dates L ↔ ∃ x, L.find? (fun b => b.date == t) = some x := by
    intro L
    constructor
    · intro h
      rcases List.mem_map.mp h with ⟨x, hx, hdate⟩
      have : ∃ x ∈ L, (fun b : Bar => b.date == t) x = true :=
        ⟨x, hx, by simp [hdate]⟩
      rcases List.find?_isSome.mpr this |> Option.isSome_iff_exists.mp with ⟨y, hy⟩
      exact ⟨y, hy⟩
    · rintro ⟨x, hx⟩
      have hmem := List.find?_some hx
      have hxl := List.mem_of_find?_eq_some hx
      simp only [beq_iff_eq] at hmem
      exact List.mem_map.mpr ⟨x, hxl, hmem⟩
  rw [key, key, find?_dropDuplicates]

theorem datesNodup_dropDuplicates (l : List Bar) :
    (dates (dropDuplicatesByDate l)).Nodup := by
  induction l using dropDuplicatesByDate.induct with
  | case1 => simp [dropDuplicatesByDate, dates]
  | case2 b rest ih =>
    simp only [dropDuplicatesByDate, dates, List.map_cons, List.nodup_cons]
    refine ⟨?_, ih⟩
    intro hmem
    rcases List.mem_map.mp hmem with ⟨x, hx, hdate⟩
    have := List.of_mem_filter (mem_of_mem_dropDuplicates hx)
    simp [hdate] at this

theorem dropDuplicates_eq_self {l : List Bar} (h : (dates l).Nodup) :
    dropDuplicatesByDate l = l := by
  induction l using dropDuplicatesByDate.induct with
  | case1 => simp [dropDuplicatesByDate]
  | case2 b rest ih =>
    simp only [dates, List.map_cons, List.nodup_cons] at h
    have hfilter : rest.filter (fun x => x.date != b.date) = rest := by
      apply List.filter_eq_self.mpr
      intro x hx
      simp only [bne_iff_ne, ne_eq, decide_eq_true_eq]
      intro hcontra
      exact h.1 (List.mem_map.mpr ⟨x, hx, hcontra.symm ▸ rfl⟩)
    have ih' := ih
    rw [hfilter] at ih'
    rw [dropDuplicatesByDate, hfilter, ih' h.2]

theorem dropDuplicates_idem (l : List Bar) :
    dropDuplicatesByDate (dropDuplicatesByDate l) = dropDuplicatesByDate l :=
  dropDuplicates_eq_self (datesNodup_dropDuplicates l)

theorem dropDuplicates_append_mem {x : Bar} {l : List Bar}
    (h : x.date ∈ dates l) :
    dropDuplicatesByDate (l ++ [x]) = dropDuplicatesByDate l := by
  induction l using dropDuplicatesByDate.induct with
  | case1 => simp [dates] at h
  | case2 b rest ih =>
    by_cases hx : x.date = b.date
    · have hfilter : (rest ++ [x]).filter (fun y => y.date != b.date)
          = rest.filter (fun y => y.date != b.date) := by
        rw [List.filter_append]
        simp [hx]
      simp only [List.cons_append, dropDuplicatesByDate, hfilter]
    · simp only [dates, List.map_cons, List.mem_cons] at h
      rcases h with h | h
      · exact absurd h hx
      · have hmem : x.date ∈ dates (rest.filter (fun y => y.date != b.date)) := by
          rcases List.mem_map.mp h with ⟨y, hy, hdate⟩
          refine List.mem_map.mpr ⟨y, List.mem_filter.mpr ⟨hy, ?_⟩, hdate⟩
          simp [hdate, hx]
        have hfilter : (rest ++ [x]).filter (fun y => y.date != b.date)
            = rest.filter (fun y => y.date != b.date) ++ [x] := by
          rw [List.filter_append]
          simp [hx]
        simp only [List.cons_append, dropDuplicatesByDate, hfilter, ih hmem]

theorem dropDuplicates_ne_nil {l : List Bar} (h : l ≠ []) :
    dropDuplicatesByDate l ≠ [] := by
  cases l with
  | nil => exact absurd rfl h
  | cons b rest => simp [dropDuplicatesByDate]

theorem find?_eq_of_nodup_mem {L : List Bar} {x : Bar} {t : Nat}
    (hnd : (dates L).Nodup) (hx : x ∈ L) (hdate : x.date = t) :
    L.find? (fun b => b.date == t) = some x := by
  induction L with
  | nil => simp at hx
  | cons y ys ih =>
    simp only [dates, List.map_cons, List.nodup_cons] at hnd
    rcases List.mem_cons.mp hx with h | h
    · subst h
      simp [List.find?, hdate]
    · have hyt : (y.date == t) = false := by
        simp only [beq_eq_false_iff_ne, ne_eq]
        intro hcontra
        exact hnd.1 (List.mem_map.mpr ⟨x, h, by rw [hdate, hcontra]⟩)
      simp [List.find?, hyt, ih hnd.2 h]

theorem find?_append_left {l₁ l₂ : List Bar} {p : Bar → Bool} {b : Bar}
    (h : l₁.find? p = some b) : (l₁ ++ l₂).find? p = some b := by
  induction l₁ with
  | nil => simp [List.find?] at h
  | cons y ys ih =>
    cases hy : p y with
    | true => simp_all [List.find?]
    | false =>
      simp only [List.find?, hy] at h
      simp only [List.cons_append, List.find?, hy]
      exact ih h

theorem dates_map_status (l : List Bar) (s : String) :
    dates (l.map (fun b => { b with status := s })) = dates l := by
  simp [dates, List.map_map]

theorem mem_of_getLast?_eq_some {l : List Bar} {x : Bar}
    (h : l.getLast? = some x) : x ∈ l := by
  have hx := List.mem_getLast?_eq_getLast (l := l) (x := x) (by simp [h])
  rcases hx with ⟨hne, hx⟩
  rw [hx]
  exact List.getLast_mem hne

theorem strictlyIncreasing_datesNodup {l : List Bar}
    (h : strictlyIncreasing l) : (dates l).Nodup :=
  h.imp (fun hlt => Nat.ne_of_lt hlt)

theorem update_nonempty (old B : List Bar) (h : old ≠ []) :
    (update_historical_data old B).2
      = dropDuplicatesByDate
          (old ++ tailOne (B.map (fun b => { b with status := "null" }))) := by
  simp [update_historical_data, h]

theorem update_empty (B : List Bar) :
    (update_historical_data [] B).2
      = B.map (fun b => { b with status := "null" }) := by
  simp [update_historical_data]

/-! ## Claim C7: merge keeps the first occurrence per timestamp -/

/-- Claim C7: for every existing series `S` and fetched new-bar set `B`,
merge de-duplicates by timestamp keeping the first occurrence: if `S` has a
(possibly status-annotated) row `b` at timestamp `t`, the merged series
still contains exactly that row at `t`, so the freshly fetched
(status `"null"`) duplicate of `t` is discarded. -/
theorem merge_keeps_first_at_date (S B : List Bar) (t : Nat) (b : Bar)
    (hfind : findByDate S t = some b) :
    findByDate (update_historical_data S B).2 t = some b ∧
    ∀ x ∈ (update_historical_data S B).2, x.date = t → x = b := by
  have hS : S ≠ [] := by
    intro h
    subst h
    simp [findByDate] at hfind
  have hmerged : (update_historical_data S B).2
      = dropDuplicatesByDate
          (S ++ tailOne (B.map (fun b => { b with status := "null" }))) := by
    simp [update_historical_data, hS]
  rw [hmerged]
  have hfind2 : (dropDuplicatesByDate
      (S ++ tailOne (B.map (fun b => { b with status := "null" })))).find?
        (fun x => x.date == t) = some b := by
    rw [find?_dropDuplicates]
    exact find?_append_left hfind
  refine ⟨hfind2, ?_⟩
  intro x hx hxdate
  have hnd := datesNodup_dropDuplicates
    (S ++ tailOne (B.map (fun b => { b with status := "null" })))
  have hfx := find?_eq_of_nodup_mem hnd hx hxdate
  rw [hfx] at hfind2
  exact Option.some.inj hfind2

/-- Witness for C7: a stored annotated bar at timestamp 1 survives a merge
that fetches an unannotated bar with the same timestamp. -/
theorem merge_keeps_first_at_date_witness :
    findByDate (update_historical_data [annBar] [barAt 1]).2 1 = some annBar ∧
    ∀ x ∈ (update_historical_data [annBar] [barAt 1]).2, x.date = 1 → x = annBar :=
  merge_keeps_first_at_date [annBar] [barAt 1] 1 annBar (by simp [findByDate, annBar])

/-! ## Claim C8: invariants of the merged series -/

/-- Counterexample to C8 as stated: merge performs no re-sort and no
verification, so an existing series stored out of order produces a merged
series whose timestamps are not strictly increasing (dates 2, 1, 3). -/
theorem merge_not_sorted_counterexample :
    ¬ strictlyIncreasing (update_historical_data [barAt 2, barAt 1] [barAt 3]).2 := by
  have : (update_historical_data [barAt 2, barAt 1] [barAt 3]).2
      = [barAt 2, barAt 1, { barAt 3 with status := "null" }] := by
    simp [update_historical_data, tailOne, dropDuplicatesByDate, barAt]
  rw [this]
  intro h
  simp [strictlyIncreasing, dates, List.pairwise_cons, barAt] at h

/-- Claim C8, amended: the code never re-sorts or verifies, so the
invariant is conditional.  For a nonempty existing series the merged series
always has pairwise-distinct timestamps; it is strictly increasing provided
the existing series is strictly increasing and the single appended fetched
bar (the last of `B`) either is strictly newer than every stored bar or
carries a timestamp already present. -/
theorem merge_invariants_amended (S B : List Bar) (hS : S ≠ []) :
    datesNodup (update_historical_data S B).2 ∧
    (strictlyIncreasing S →
      (∀ x, B.getLast? = some x →
        (∀ a ∈ S, a.date < x.date) ∨ x.date ∈ dates S) →
      strictlyIncreasing (update_historical_data S B).2) := by
  have hmerged : (update_historical_data S B).2
      = dropDuplicatesByDate
          (S ++ tailOne (B.map (fun b => { b with status := "null" }))) := by
    simp [update_historical_data, hS]
  rw [hmerged]
  constructor
  · exact datesNodup_dropDuplicates _
  · intro hinc hlast
    cases hB : B.getLast? with
    | none =>
      have hBnil : B = [] := by
        cases B with
        | nil => rfl
        | cons y ys => simp [List.getLast?_eq_getLast_of_ne_nil] at hB
      subst hBnil
      simp only [List.map_nil, tailOne, List.getLast?_nil, List.append_nil]
      rw [dropDuplicates_eq_self (strictlyIncreasing_datesNodup hinc)]
      exact hinc
    | some x =>
      have htail : tailOne (B.map (fun b => { b with status := "null" }))
          = [{ x with status := "null" }] := by
        unfold tailOne
        rw [List.getLast?_map, hB]
        rfl
      rw [htail]
      rcases hlast x hB with hnew | hdup
      · have hnotmem : ({ x with status := "null" } : Bar).date ∉ dates S := by
          intro hmem
          rcases List.mem_map.mp hmem with ⟨a, ha, hda⟩
          exact Nat.lt_irrefl _ (hda ▸ hnew a ha)
        have hnd : (dates (S ++ [{ x with status := "null" }])).Nodup := by
          rw [dates, List.map_append]
          rw [List.nodup_append]
          refine ⟨strictlyIncreasing_datesNodup hinc, List.nodup_singleton _, ?_⟩
          intro a ha hb
          simp only [List.map_cons, List.map_nil, List.mem_singleton] at hb
          subst hb
          exact hnotmem ha
        rw [dropDuplicates_eq_self hnd]
        rw [strictlyIncreasing, dates, List.map_append]
        rw [List.pairwise_append]
        refine ⟨hinc, by simp, ?_⟩
        intro a ha c hc
        simp only [List.map_cons, List.map_nil, List.mem_singleton] at hc
        subst hc
        rcases List.mem_map.mp ha with ⟨a', ha', hda'⟩
        exact hda' ▸ hnew a' ha'
      · have hmem : ({ x with status := "null" } : Bar).date ∈ dates S := hdup
        rw [dropDuplicates_append_mem hmem]
        rw [dropDuplicates_eq_self (strictlyIncreasing_datesNodup hinc)]
        exact hinc

/-- Witness for C8 amended: an in-order series [1] merged with a newer
fetched bar [2] stays strictly increasing with unique timestamps. -/
theorem merge_invariants_amended_witness :
    datesNodup (update_historical_data [barAt 1] [barAt 2]).2 ∧
    (strictlyIncreasing [barAt 1] →
      (∀ x, ([barAt 2] : List Bar).getLast? = some x →
        (∀ a ∈ [barAt 1], a.date < x.date) ∨ x.date ∈ dates [barAt 1]) →
      strictlyIncreasing (update_historical_data [barAt 1] [barAt 2]).2) :=
  merge_invariants_amended [barAt 1] [barAt 2] (by simp)

/-! ## Claim C9: idempotence of merge -/

/-- Counterexample to C9 as stated: with an empty existing series and a
fetched set containing two bars at the same timestamp, the first merge
returns both duplicates unchanged, while re-merging de-duplicates, so
`merge(merge(S,B), B) ≠ merge(S,B)`. -/
theorem merge_not_idempotent_counterexample :
    (update_historical_data
        (update_historical_data [] [barAtClose 1 1, barAtClose 1 2]).2
        [barAtClose 1 1, barAtClose 1 2]).2
      ≠ (update_historical_data [] [barAtClose 1 1, barAtClose 1 2]).2 := by
  have h1 : (update_historical_data [] [barAtClose 1 1, barAtClose 1 2]).2
      = [barAtClose 1 1, barAtClose 1 2] := by
    simp [update_historical_data, barAtClose]
  have h2 : (update_historical_data [barAtClose 1 1, barAtClose 1 2]
        [barAtClose 1 1, barAtClose 1 2]).2
      = [barAtClose 1 1] := by
    simp [update_historical_data, tailOne, dropDuplicatesByDate, barAtClose,
      List.filter_cons]
  rw [h1, h2]
  simp [barAtClose]

/-- Claim C9, amended: merge is idempotent whenever the existing series is
nonempty, or the fetched new-bar set has pairwise-distinct timestamps; the
counterexample (empty series, duplicated fetched timestamps) is the only
failure mode. -/
theorem merge_idempotent_amended (S B : List Bar)
    (h : S ≠ [] ∨ datesNodup B) :
    (update_historical_data (update_historical_data S B).2 B).2
      = (update_historical_data S B).2 := by
  by_cases hS : S = []
  case neg =>
    have hmerged : (update_historical_data S B).2
        = dropDuplicatesByDate
            (S ++ tailOne (B.map (fun b => { b with status := "null" }))) :=
      update_nonempty S B hS
    have hMne : (update_historical_data S B).2 ≠ [] := by
      rw [hmerged]
      exact dropDuplicates_ne_nil (by simp [hS])
    have houter : (update_historical_data (update_historical_data S B).2 B).2
        = dropDuplicatesByDate ((update_historical_data S B).2
            ++ tailOne (B.map (fun b => { b with status := "null" }))) :=
      update_nonempty _ B hMne
    rw [houter]
    cases hB : (B.map (fun b => { b with status := "null" })).getLast? with
    | none =>
      have htail : tailOne (B.map (fun b => { b with status := "null" })) = [] := by
        unfold tailOne
        rw [hB]
      rw [htail, List.append_nil, hmerged, dropDuplicates_idem]
    | some x =>
      have htail : tailOne (B.map (fun b => { b with status := "null" })) = [x] := by
        unfold tailOne
        rw [hB]
      have hxdate : x.date ∈ dates (update_historical_data S B).2 := by
        rw [hmerged, dateMem_dropDuplicates, htail, dates, List.map_append]
        exact List.mem_append_right _ (by simp)
      rw [htail, dropDuplicates_append_mem hxdate, hmerged, dropDuplicates_idem]
  case pos =>
    have hB : datesNodup B := by
      rcases h with h1 | h2
      · exact absurd hS h1
      · exact h2
    have hBN : datesNodup (B.map (fun b => { b with status := "null" })) := by
      unfold datesNodup
      rw [dates_map_status]
      exact hB
    subst hS
    rw [update_empty B]
    by_cases hBnil : B.map (fun b => { b with status := "null" }) = []
    · rw [hBnil]
      exact (update_empty B).trans hBnil
    · have houter : (update_historical_data
            (B.map (fun b => { b with status := "null" })) B).2
          = dropDuplicatesByDate ((B.map (fun b => { b with status := "null" }))
              ++ tailOne (B.map (fun b => { b with status := "null" }))) :=
        update_nonempty _ B hBnil
      rw [houter]
      have hlast : (B.map (fun b => { b with status := "null" })).getLast?
          = some ((B.map (fun b => { b with status := "null" })).getLast hBnil) :=
        List.getLast?_eq_getLast_of_ne_nil hBnil
      have htail : tailOne (B.map (fun b => { b with status := "null" }))
          = [(B.map (fun b => { b with status := "null" })).getLast hBnil] := by
        unfold tailOne
        rw [hlast]
      have hxdate : ((B.map (fun b => ({ b with status := "null" } : Bar))).getLast
            hBnil).date
          ∈ dates (B.map (fun b => { b with status := "null" })) :=
        List.mem_map.mpr ⟨_, List.getLast_mem hBnil, rfl⟩
      rw [htail, dropDuplicates_append_mem hxdate, dropDuplicates_eq_self hBN]

/-- Witness for C9 amended: one stored bar, one newer fetched bar; merging
twice equals merging once. -/
theorem merge_idempotent_amended_witness :
    (update_historical_data (update_historical_data [barAt 1] [barAt 2]).2 [barAt 2]).2
      = (update_historical_data [barAt 1] [barAt 2]).2 :=
  merge_idempotent_amended [barAt 1] [barAt 2] (Or.inl (by simp))

/-! ## Rounding helper lemmas -/

theorem pyRound_intCast (n : ℤ) : pyRound (n : ℚ) = n := by
  unfold pyRound
  simp only [Int.floor_intCast, sub_self]
  norm_num

theorem round5_eq_self {q : ℚ} (h : ∃ n : ℤ, q = (n : ℚ) / 100000) :
    round5 q = q := by
  rcases h with ⟨n, rfl⟩
  unfold round5
  have hmul : ((n : ℚ) / 100000) * 100000 = (n : ℚ) := by
    field_simp
  rw [hmul, pyRound_intCast]

/-! ## Claim C1: the kill-switch performs no remediation -/

/-- Claim C1 (code evaluated at the failing input): in a state where both
bracket legs are still `PreSubmitted` when the kill-switch timer expires —
not the exclusive one-Filled / one-Cancelled pattern — the deferred task of
`fallback_kill_switch` leaves the state exactly unchanged: it cancels
neither leg and submits no opposing market order, because the remediation
body (ib_client.py lines 183-193) is commented out.  The spec instead
requires both legs cancelled and a flattening market order. -/
theorem killSwitch_preSubmitted_noop :
    fallback_kill_switch_task stC1 "EURUSD" "BUY" 20000 tpOrderC1 slOrderC1 = stC1 ∧
    stC1.active_order_status = [(2, "PreSubmitted"), (1, "PreSubmitted")] ∧
    (fallback_kill_switch_task stC1 "EURUSD" "BUY" 20000 tpOrderC1 slOrderC1).cancelled
      = [] ∧
    legPrices stC1
      (fallback_kill_switch_task stC1 "EURUSD" "BUY" 20000 tpOrderC1 slOrderC1)
      = [] :=
  ⟨rfl, rfl, rfl, rfl⟩

/-! ## Claim C3: reconciliation (spec-modelled) -/

/-- Claim C3: after `resync`, every id that was tracked but is absent from
the broker's authoritative open-order snapshot is no longer tracked
(reclassified terminal), every id open at the broker is tracked (adopted),
and no order is submitted by reconciliation (never re-submitted). -/
theorem resync_reconciles (st : EngineState) (broker : List Nat) (oid : Nat)
    (h1 : oid ∈ st.tracked_orders) (h2 : oid ∉ broker) :
    oid ∉ (resync st broker).tracked_orders ∧
    (∀ j ∈ broker, j ∈ (resync st broker).tracked_orders) ∧
    (resync st broker).placedOrders = st.placedOrders := by
  refine ⟨?_, ?_, rfl⟩
  · intro hmem
    simp only [resync, List.mem_append, List.mem_filter] at hmem
    rcases hmem with ⟨_, hc⟩ | ⟨hc, _⟩
    · exact h2 (by simpa using hc)
    · exact h2 hc
  · intro j hj
    simp only [resync, List.mem_append, List.mem_filter]
    by_cases hjt : j ∈ st.tracked_orders
    · exact Or.inl ⟨hjt, by simpa using hj⟩
    · exact Or.inr ⟨hj, by simpa using hjt⟩

/-- Witness for C3: tracked ids 1 and 2 against a broker snapshot holding
ids 2 and 3 — id 1 is dropped, ids 2 and 3 end up tracked, nothing is
submitted. -/
theorem resync_reconciles_witness :
    1 ∉ (resync stTracked [2, 3]).tracked_orders ∧
    (∀ j ∈ ([2, 3] : List Nat), j ∈ (resync stTracked [2, 3]).tracked_orders) ∧
    (resync stTracked [2, 3]).placedOrders = stTracked.placedOrders :=
  resync_reconciles stTracked [2, 3] 1 (by decide) (by decide)

/-! ## Claim C4: connect has no retry -/

/-- Counterexample to C4 as stated: with attempt outcomes
[failure, success], a connect that retried up to a configured attempt count
of 2 would succeed (`connect_spec`), but the code's `connect` makes exactly
one attempt and propagates the broker error. -/
theorem connect_no_retry_counterexample :
    (connect [false, true]).1 = Except.error "ConnectionRefusedError" ∧
    (connect [false, true]).2 = 1 ∧
    connect_spec 2 [false, true] = Except.ok () ∧
    (connect [false, true]).1 ≠ connect_spec 2 [false, true] := by
  refine ⟨rfl, rfl, rfl, ?_⟩
  simp [connect, connect_spec]

/-- Claim C4, amended: `connect()` makes exactly one connection attempt per
call — no idempotency guard, no retry, no configured attempt count — and
succeeds iff that single attempt succeeds; a failure propagates the broker
library's error immediately rather than a ConnectivityError after
exhaustion. -/
theorem connect_single_attempt (attemptOutcomes : List Bool) :
    (connect attemptOutcomes).2 = 1 ∧
    ((connect attemptOutcomes).1 = Except.ok ()
      ↔ attemptOutcomes.head? = some true) := by
  cases attemptOutcomes with
  | nil => simp [connect]
  | cons a rest => cases a <;> simp [connect]

/-! ## Claim C6: the exposure gate -/

/-- Counterexample to C6 as stated: at a state with an existing open EURUSD
position, `place_bracket_order` is indeed a no-op, but the Python function
returns `None` (bare `return`, ib_client.py line 206), not the string
`"already exposed"`. -/
theorem already_exposed_counterexample :
    place_bracket_order envExposed st0 "EURUSD" "BUY" 20000 5 5 = (st0, none) ∧
    (place_bracket_order envExposed st0 "EURUSD" "BUY" 20000 5 5).2
      ≠ some "already exposed" := by
  constructor
  · rfl
  · intro h
    rw [show place_bracket_order envExposed st0 "EURUSD" "BUY" 20000 5 5
          = (st0, none) from rfl] at h
    exact Option.noConfusion h

/-- Claim C6, amended: when an open position or a pending open-status order
already exists for the instrument, `place_bracket_order` is a no-op — no
order is submitted and no local state is modified — and it returns `None`
(not the string `"already exposed"`). -/
theorem place_bracket_order_exposed_noop (env : Env) (st : EngineState)
    (symbol action : String) (quantity target_pips stop_loss_pips : ℚ)
    (hexp : (get_open_positions env symbol).1 ≠ []
      ∨ (get_open_positions env symbol).2 ≠ []) :
    place_bracket_order env st symbol action quantity target_pips stop_loss_pips
      = (st, none) := by
  have hcond : (get_open_positions env symbol).1.length > 0
      ∨ (get_open_positions env symbol).2.length > 0 := by
    rcases hexp with h | h
    · exact Or.inl (List.length_pos.mpr h)
    · exact Or.inr (List.length_pos.mpr h)
  simp only [place_bracket_order]
  rw [if_pos hcond]

/-- Witness for C6 amended: the concrete exposed environment takes the
no-op branch. -/
theorem place_bracket_order_exposed_noop_witness :
    place_bracket_order envExposed st0 "EURUSD" "SELL" 20000 5 5
      = (st0, none) :=
  place_bracket_order_exposed_noop envExposed st0 "EURUSD" "SELL" 20000 5 5
    (Or.inl (by decide))

/-! ## Claim C2: the no-fill path submits no bracket legs -/

/-- Evaluation of `place_bracket_order` on the timeout path: the exposure
gate passes, the market entry order is submitted, and no matching execution
report is found before `fill_timeout`. -/
theorem place_bracket_order_timeout_eval (env : Env) (st : EngineState)
    (symbol action : String) (quantity target_pips stop_loss_pips : ℚ)
    (hexp : ¬ ((get_open_positions env symbol).1.length > 0
      ∨ (get_open_positions env symbol).2.length > 0))
    (hfill : env.fills.find? (fun f => f.orderId == st.nextOrderId) = none) :
    place_bracket_order env st symbol action quantity target_pips stop_loss_pips
      = ({ st with
            nextOrderId := st.nextOrderId + 1,
            placedOrders := st.placedOrders ++
              [(symbol, { orderId := st.nextOrderId, action := toUpperStr action,
                          orderType := "MKT", totalQuantity := quantity,
                          transmit := true })] }, none) := by
  simp only [place_bracket_order, placeOrder]
  rw [if_neg hexp, hfill]

/-- Claim C2: when no execution report matching the entry order arrives
within `fill_timeout`, the call aborts with no take-profit or stop-loss
order submitted (no LMT or STP order is added to the submission log) and
both tracked-order registries unchanged. -/
theorem place_bracket_order_no_fill (env : Env) (st : EngineState)
    (symbol action : String) (quantity target_pips stop_loss_pips : ℚ)
    (hfill : env.fills.find? (fun f => f.orderId == st.nextOrderId) = none) :
    (place_bracket_order env st symbol action quantity target_pips stop_loss_pips).2
      = none ∧
    (place_bracket_order env st symbol action quantity target_pips
        stop_loss_pips).1.tracked_orders = st.tracked_orders ∧
    (place_bracket_order env st symbol action quantity target_pips
        stop_loss_pips).1.tracked_order_ids = st.tracked_order_ids ∧
    (place_bracket_order env st symbol action quantity target_pips
        stop_loss_pips).1.placedOrders.filter
          (fun p => p.2.orderType == "LMT" || p.2.orderType == "STP")
      = st.placedOrders.filter
          (fun p => p.2.orderType == "LMT" || p.2.orderType == "STP") := by
  by_cases hexp : (get_open_positions env symbol).1.length > 0
      ∨ (get_open_positions env symbol).2.length > 0
  · have heval : place_bracket_order env st symbol action quantity target_pips
        stop_loss_pips = (st, none) := by
      simp only [place_bracket_order]
      rw [if_pos hexp]
    rw [heval]
    exact ⟨rfl, rfl, rfl, rfl⟩
  · rw [place_bracket_order_timeout_eval env st symbol action quantity
      target_pips stop_loss_pips hexp hfill]
    refine ⟨rfl, rfl, rfl, ?_⟩
    rw [List.filter_append]
    simp

/-- Witness for C2: quiet environment (no fills at all), concrete call. -/
theorem place_bracket_order_no_fill_witness :
    (place_bracket_order envQuiet st0 "EURUSD" "BUY" 20000 5 5).2 = none ∧
    (place_bracket_order envQuiet st0 "EURUSD" "BUY" 20000 5
        5).1.tracked_orders = st0.tracked_orders ∧
    (place_bracket_order envQuiet st0 "EURUSD" "BUY" 20000 5
        5).1.tracked_order_ids = st0.tracked_order_ids ∧
    (place_bracket_order envQuiet st0 "EURUSD" "BUY" 20000 5
        5).1.placedOrders.filter
          (fun p => p.2.orderType == "LMT" || p.2.orderType == "STP")
      = st0.placedOrders.filter
          (fun p => p.2.orderType == "LMT" || p.2.orderType == "STP") :=
  place_bracket_order_no_fill envQuiet st0 "EURUSD" "BUY" 20000 5 5 rfl

/-! ## Claims C5 and C10: bracket leg pricing -/

/-- Evaluation of `place_bracket_order` on the filled path: the exposure
gate passes and the fills snapshot holds an execution report for the entry
order id.  The call submits the market entry, then the STP stop leg, then
the LMT target leg, with prices computed from the actual execution price,
rounded to 5 decimal places, and pip size 0.01 for JPY symbols and 0.0001
otherwise; both registries record the new leg ids. -/
theorem place_bracket_order_filled_eval (env : Env) (st : EngineState)
    (symbol action : String) (quantity target_pips stop_loss_pips : ℚ)
    (fl : Fill)
    (hexp : ¬ ((get_open_positions env symbol).1.length > 0
      ∨ (get_open_positions env symbol).2.length > 0))
    (hfill : env.fills.find? (fun f => f.orderId == st.nextOrderId) = some fl) :
    place_bracket_order env st symbol action quantity target_pips stop_loss_pips
      = ({ st with
            nextOrderId := st.nextOrderId + 3,
            placedOrders := st.placedOrders ++
              [(symbol, { orderId := st.nextOrderId, action := toUpperStr action,
                          orderType := "MKT", totalQuantity := quantity,
                          transmit := true }),
               (symbol, { orderId := st.nextOrderId + 1,
                          action := if toUpperStr action == "BUY" then "SELL" else "BUY",
                          orderType := "STP",
                          auxPrice := some (if toUpperStr action == "BUY"
                            then round5 (fl.price - stop_loss_pips *
                              (if containsStr symbol "JPY" then (1 : ℚ)/100 else 1/10000))
                            else round5 (fl.price + stop_loss_pips *
                              (if containsStr symbol "JPY" then (1 : ℚ)/100 else 1/10000))),
                          totalQuantity := fl.shares,
                          ocaGroup := some ("OCA_" ++ env.ocaSeed), ocaType := 1,
                          transmit := true }),
               (symbol, { orderId := st.nextOrderId + 2,
                          action := if toUpperStr action == "BUY" then "SELL" else "BUY",
                          orderType := "LMT",
                          lmtPrice := some (if toUpperStr action == "BUY"
                            then round5 (fl.price + target_pips *
                              (if containsStr symbol "JPY" then (1 : ℚ)/100 else 1/10000))
                            else round5 (fl.price - target_pips *
                              (if containsStr symbol "JPY" then (1 : ℚ)/100 else 1/10000))),
                          totalQuantity := fl.shares,
                          ocaGroup := some ("OCA_" ++ env.ocaSeed), ocaType := 1,
                          transmit := true })],
            active_order_status := st.active_order_status,
            tracked_orders := updateSet st.tracked_orders
              [st.nextOrderId + 1, st.nextOrderId + 2],
            tracked_order_ids := st.tracked_order_ids ++
              [st.nextOrderId, st.nextOrderId + 2, st.nextOrderId + 1],
            signal_records := st.signal_records ++
              [{ symbol := symbol, datetime := fl.time,
                 direction := toUpperStr action, price := fl.price }],
            open_position_records := st.open_position_records ++
              [{ entryDateTime := fl.time, symbolName := symbol,
                 orderId := fl.orderId, qty := quantity, entryPrice := fl.price,
                 exitDateTime := "", exitPrice := "" }] }, none) := by
  simp only [place_bracket_order, placeOrder, fallback_kill_switch_task]
  rw [if_neg hexp, hfill]
  simp [List.append_assoc]

theorem round5_grid_offset {p t k : ℚ} (n i : ℤ) (hp : p = (n : ℚ)/100000)
    (ht : t = (i : ℚ)) (hk : k = 1/100 ∨ k = 1/10000) :
    round5 (p + t * k) = p + t * k ∧ round5 (p - t * k) = p - t * k := by
  subst hp
  subst ht
  rcases hk with hk | hk <;> subst hk
  · exact ⟨round5_eq_self ⟨n + 1000 * i, by push_cast; ring⟩,
           round5_eq_self ⟨n - 1000 * i, by push_cast; ring⟩⟩
  · exact ⟨round5_eq_self ⟨n + 10 * i, by push_cast; ring⟩,
           round5_eq_self ⟨n - 10 * i, by push_cast; ring⟩⟩

/-- Claim C5: on the filled path the leg prices are computed from the
actual execution price: for BUY, target = fill + target offset and
stop = fill − stop offset; for SELL the signs invert.  Stated for prices on
the broker's 10^-5 grid and whole-number pip offsets, where the 5-decimal
rounding is the identity. -/
theorem bracket_prices_from_fill (env : Env) (st : EngineState)
    (symbol action : String) (quantity target_pips stop_loss_pips : ℚ)
    (fl : Fill)
    (hexp : get_open_positions env symbol = ([], []))
    (hfill : env.fills.find? (fun f => f.orderId == st.nextOrderId) = some fl)
    (hgrid : ∃ n : ℤ, fl.price = (n : ℚ) / 100000)
    (htp : ∃ i : ℤ, target_pips = (i : ℚ))
    (hsl : ∃ j : ℤ, stop_loss_pips = (j : ℚ))
    (hact : action = "BUY" ∨ action = "SELL") :
    legPrices st (place_bracket_order env st symbol action quantity
        target_pips stop_loss_pips).1
      = [("MKT", none, none),
         ("STP", none, some (if action = "BUY"
            then fl.price - stop_loss_pips *
              (if containsStr symbol "JPY" then (1 : ℚ)/100 else 1/10000)
            else fl.price + stop_loss_pips *
              (if containsStr symbol "JPY" then (1 : ℚ)/100 else 1/10000))),
         ("LMT", some (if action = "BUY"
            then fl.price + target_pips *
              (if containsStr symbol "JPY" then (1 : ℚ)/100 else 1/10000)
            else fl.price - target_pips *
              (if containsStr symbol "JPY" then (1 : ℚ)/100 else 1/10000)),
          none)] := by
  have hexp' : ¬ ((get_open_positions env symbol).1.length > 0
      ∨ (get_open_positions env symbol).2.length > 0) := by
    rw [hexp]
    simp
  rw [place_bracket_order_filled_eval env st symbol action quantity
    target_pips stop_loss_pips fl hexp' hfill]
  rcases hgrid with ⟨n, hn⟩
  rcases htp with ⟨i, hi⟩
  rcases hsl with ⟨j, hj⟩
  have hpip : (if containsStr symbol "JPY" then (1 : ℚ)/100 else 1/10000) = 1/100
      ∨ (if containsStr symbol "JPY" then (1 : ℚ)/100 else 1/10000) = 1/10000 := by
    cases containsStr symbol "JPY" <;> simp
  have hT := round5_grid_offset n i hn hi hpip
  have hS := round5_grid_offset n j hn hj hpip
  unfold legPrices
  rcases hact with ha | ha <;> subst ha
  · have hb : (toUpperStr "BUY" == "BUY") = true := rfl
    simp only [hb, if_true, List.drop_left, List.map_cons, List.map_nil,
      hT.1, hS.2]
    try simp
  · have hb : (toUpperStr "SELL" == "BUY") = false := rfl
    simp only [hb, if_false, Bool.false_eq_true, List.drop_left,
      List.map_cons, List.map_nil, hT.2, hS.1]
    try simp

/-- Witness for C5: the spec's own example — BUY, 5-pip offsets, non-JPY
pip size 0.0001, fill at 1.10000 — yields TP 1.10050 and SL 1.09950. -/
theorem bracket_prices_from_fill_witness :
    legPrices st0 (place_bracket_order envFilled st0 "EURUSD" "BUY" 20000 5 5).1
      = [("MKT", none, none),
         ("STP", none, some ((109950 : ℚ)/100000)),
         ("LMT", some ((110050 : ℚ)/100000), none)] := by
  have h := bracket_prices_from_fill envFilled st0 "EURUSD" "BUY" 20000 5 5
    { orderId := 3, price := 11/10, shares := 20000, time := 1700000000 }
    rfl rfl ⟨110000, by norm_num⟩ ⟨5, by norm_num⟩ ⟨5, by norm_num⟩
    (Or.inl rfl)
  rw [h]
  norm_num [show containsStr "EURUSD" "JPY" = false from rfl]

/-- Claim C10: the pip size used to convert pip offsets into absolute
prices is 0.01 when the symbol contains `"JPY"` and 0.0001 otherwise, and
both computed leg prices are rounded to 5 decimal places before the STP
and LMT leg orders are created. -/
theorem pip_size_and_rounding (env : Env) (st : EngineState)
    (symbol action : String) (quantity target_pips stop_loss_pips : ℚ)
    (fl : Fill)
    (hexp : get_open_positions env symbol = ([], []))
    (hfill : env.fills.find? (fun f => f.orderId == st.nextOrderId) = some fl) :
    legPrices st (place_bracket_order env st symbol action quantity
        target_pips stop_loss_pips).1
      = [("MKT", none, none),
         ("STP", none, some (if toUpperStr action == "BUY"
            then round5 (fl.price - stop_loss_pips *
              (if containsStr symbol "JPY" then (1 : ℚ)/100 else 1/10000))
            else round5 (fl.price + stop_loss_pips *
              (if containsStr symbol "JPY" then (1 : ℚ)/100 else 1/10000)))),
         ("LMT", some (if toUpperStr action == "BUY"
            then round5 (fl.price + target_pips *
              (if containsStr symbol "JPY" then (1 : ℚ)/100 else 1/10000))
            else round5 (fl.price - target_pips *
              (if containsStr symbol "JPY" then (1 : ℚ)/100 else 1/10000))),
          none)] := by
  have hexp' : ¬ ((get_open_positions env symbol).1.length > 0
      ∨ (get_open_positions env symbol).2.length > 0) := by
    rw [hexp]
    simp
  rw [place_bracket_order_filled_eval env st symbol action quantity
    target_pips stop_loss_pips fl hexp' hfill]
  unfold legPrices
  simp only [List.drop_left, List.map_cons, List.map_nil]

/-- Witness for C10: a JPY symbol uses pip size 0.01 — BUY USDJPY filled at
150.00 with 5-pip offsets gives SL 149.95 and TP 150.05 (both values equal
to their 5-decimal rounding). -/
theorem pip_size_and_rounding_witness :
    legPrices st0 (place_bracket_order envFilledJpy st0 "USDJPY" "BUY" 20000 5 5).1
      = [("MKT", none, none),
         ("STP", none, some ((14995 : ℚ)/100)),
         ("LMT", some ((15005 : ℚ)/100), none)] := by
  have h := pip_size_and_rounding envFilledJpy st0 "USDJPY" "BUY" 20000 5 5
    { orderId := 3, price := 150, shares := 20000, time := 1700000000 }
    rfl rfl
  rw [h]
  simp only [show containsStr "USDJPY" "JPY" = true from rfl,
    show (toUpperStr "BUY" == "BUY") = true from rfl, if_true]
  rw [round5_eq_self (q := 150 - 5 * (1/100)) ⟨14995000, by norm_num⟩,
    round5_eq_self (q := 150 + 5 * (1/100)) ⟨15005000, by norm_num⟩]
  norm_num

end PoeData
